import Mathlib

/-!
Verification development for the khanfar/OBD2-PYTHON repository.

The Python sources (`src/obd_reader.py`, `src/data_logger.py`,
`src/report_generator.py`) are shallowly embedded belowfollowing these
conventions:
* Python floats are modelled as rationals (`ℚ`); `str`/`float` round-tripping
  of a numeric value is faithful at this level of abstraction.
* A CSV cell written by `OBDDataLogger.log_to_csv` is modelled by `Cell`:
  `Cell.num q` stands for the decimal rendering of a numeric response value,
  `Cell.nullMark` for the literal string "NULL" written for a null response,
  and `Cell.malformed t` for any other text that Python's `float` rejects.
* The external `obd` adapter library (not part of this repository) is
  modelled by `Connection`: `query` is the response table of the adapter
  (`none` models a response with `is_null()` true), `dtc`/`clear_ok` model
  the `GET_DTC`/`CLEAR_DTC` responses, `supported_commands` the discovered
  command set, and `isOpen` the transport state released by `close()`
  (python-obd's `close` is idempotent on an already-closed port).
* Python dicts keyed by the (distinct) CSV headers are modelled positionally:
  a list of per-parameter states aligned with the header list.
-/

namespace OBD2

/-- A CSV cell as written by `log_to_csv`: a numeric rendering, the literal
"NULL" marker for an absent response, or any other unparseable text. -/
inductive Cell where
  | num (q : ℚ)
  | nullMark
  | malformed (tag : Nat)
  deriving DecidableEq, Repr

/-- Python's `float(cell)` as used in `_analyze_csv` line 183: succeeds exactly
on the numeric renderings, raises (here: `none`) on "NULL" or corrupted text. -/
def parseFloat : Cell → Option ℚ
  | .num q => some q
  | .nullMark => none
  | .malformed _ => none

/-- One CSV data row: the ISO timestamp written first, then one cell per
requested command (`data_logger.py` lines 70–74). -/
structure Row where
  timestamp : String
  cells : List Cell
  deriving DecidableEq, Repr

/-- The per-parameter accumulator built by `_analyze_csv` / `_analyze_json`:
`min`/`max` start at `float('inf')`/`float('-inf')` — modelled as `none`,
the non-finite initial state — and `values` collects every parsed value. -/
structure ParamStats where
  min : Option ℚ
  max : Option ℚ
  values : List ℚ
  deriving DecidableEq, Repr

def initStats : ParamStats := ⟨none, none, []⟩

/-- Python `min(acc, v)` where `acc` may still be the initial infinity. -/
def optMin (acc : Option ℚ) (v : ℚ) : ℚ :=
  match acc with
  | none => v
  | some m => Min.min m v

/-- Python `max(acc, v)` where `acc` may still be the initial `-inf`. -/
def optMax (acc : Option ℚ) (v : ℚ) : ℚ :=
  match acc with
  | none => v
  | some m => Max.max m v

/-- The body of `_analyze_csv`'s inner loop (lines 181–190): try to parse the
cell; on success append to `values` and update `min`/`max`; on
`ValueError`/`TypeError` leave the accumulator unchanged (`continue`). -/
def updateCell (st : ParamStats) (c : Cell) : ParamStats :=
  match parseFloat c with
  | none => st
  | some v =>
      { min := some (optMin st.min v)
        max := some (optMax st.max v)
        values := st.values ++ [v] }

/-- Apply a per-parameter update to a state list and an aligned row of inputs;
a row shorter than the header list leaves the remaining parameters untouched
(`DictReader` yields `None` for missing fields, which the `except` skips), and
cells beyond the header list are ignored (`DictReader`'s rest key). -/
def stepZip {σ α : Type} (f : σ → α → σ) : List σ → List α → List σ
  | [], _ => []
  | sts, [] => sts
  | st :: sts, a :: as => f st a :: stepZip f sts as

/-- Fold a list of rows over `n` per-parameter states, all starting at `i0`. -/
def foldRows {σ α : Type} (f : σ → α → σ) (i0 : σ) (n : Nat)
    (rows : List (List α)) : List σ :=
  rows.foldl (stepZip f) (List.replicate n i0)

/-- The accumulator pass of `_analyze_csv` (lines 173–190) over a log with `n`
header columns (after the skipped timestamp column): one `ParamStats` per
header, in header order. -/
def csvFold (n : Nat) (rows : List Row) : List ParamStats :=
  foldRows updateCell initStats n (rows.map Row.cells)

/-- One entry of the returned analysis: the final `min`/`max` fields (still
`none` when no value was ever parsed, i.e. Python's non-finite ±inf), and
`avg` present only when at least one value entered it (lines 193–196). -/
structure StatResult where
  min : Option ℚ
  max : Option ℚ
  avg : Option ℚ
  deriving DecidableEq, Repr

/-- The "Calculate averages" epilogue of `_analyze_csv` / `_analyze_json`:
`avg = sum(values)/len(values)` when `values` is non-empty, otherwise the
`avg` key is never created (modelled as `none`); `values` is deleted. -/
def finalize (st : ParamStats) : StatResult :=
  { min := st.min
    max := st.max
    avg :=
      if st.values.isEmpty then none
      else some (st.values.sum / (st.values.length : ℚ)) }

/-- `OBDDataLogger._analyze_csv`, positional form: per-column statistics of a
CSV log whose header row names `n` parameters after the timestamp column. -/
def analyze_csv (n : Nat) (rows : List Row) : List StatResult :=
  (csvFold n rows).map finalize

/-- The log messages `_analyze_csv` emits while scanning rows: the
`except (ValueError, TypeError): continue` branch (line 189–190) performs no
logging call, so the scan reports nothing, whatever the input. -/
def analyze_csv_warnings (_n : Nat) (rows : List Row) : List String :=
  (rows.map Row.cells).foldl (fun w _ => w) []

/-! ## JSON log analysis (`OBDDataLogger._analyze_json`, lines 200–233)

A JSON log is a list of entries; each entry's `"data"` object is an
association list from parameter name to `str(response.value)` (a `Cell`) or
JSON `null` (`none`). Parameters are discovered dynamically, keyed by name. -/

/-- `value = float(value) if value is not None else None; if value is not
None: update` — a `null` is skipped without an exception, an unparseable
string is skipped by the `except` clause, a numeral updates the stats. -/
def jsonUpdate (st : ParamStats) (v : Option Cell) : ParamStats :=
  match v with
  | none => st
  | some c => updateCell st c

/-- `if param not in analysis["parameters"]: init` (lines 209–214): append a
fresh accumulator at the end (dict insertion order) when the key is new. -/
def ensureParam (sts : List (String × ParamStats)) (k : String) :
    List (String × ParamStats) :=
  if sts.any (fun p => p.1 = k) then sts else sts ++ [(k, initStats)]

/-- Update the accumulator stored under key `k`. -/
def updateParam (sts : List (String × ParamStats)) (k : String)
    (v : Option Cell) : List (String × ParamStats) :=
  sts.map (fun p => if p.1 = k then (p.1, jsonUpdate p.2 v) else p)

/-- Processing of one `(param, value)` pair of one entry's data object. -/
def jsonStep (sts : List (String × ParamStats)) (kv : String × Option Cell) :
    List (String × ParamStats) :=
  updateParam (ensureParam sts kv.1) kv.1 kv.2

/-- The accumulator pass of `_analyze_json` (lines 207–225) over the list of
log entries, each an association list of per-parameter values. -/
def jsonFold (entries : List (List (String × Option Cell))) :
    List (String × ParamStats) :=
  entries.foldl (fun sts e => e.foldl jsonStep sts) []

/-- `OBDDataLogger._analyze_json`: dynamic per-parameter statistics plus the
same average epilogue as the CSV path (lines 227–233). -/
def analyze_json (entries : List (List (String × Option Cell))) :
    List (String × StatResult) :=
  (jsonFold entries).map (fun p => (p.1, finalize p.2))

/-- The log messages `_analyze_json` emits while scanning entries: its
`except (ValueError, TypeError): continue` branch (lines 224–225) performs
no logging call, so the scan reports nothing, whatever the input. -/
def analyze_json_warnings (entries : List (List (String × Option Cell))) :
    List String :=
  entries.foldl (fun w _ => w) []

/-- Replace a corrupted JSON value by an explicit null; `_analyze_json`
treats the two identically (the null is skipped by the `is not None` guard,
the corrupted text by the `except` clause). -/
def jsonSanitize : Option Cell → Option Cell
  | some (Cell.malformed _) => none
  | v => v

/-- Sanitize every value of every entry of a JSON log. -/
def sanitizeEntries (entries : List (List (String × Option Cell))) :
    List (List (String × Option Cell)) :=
  entries.map (fun e => e.map (fun kv => (kv.1, jsonSanitize kv.2)))

/-! ## The online aggregator (modelled from the spec)

The repository has no separate in-memory aggregator class; the spec's
`Aggregator` (§3 RunningStat, §4.3) is the refinement target that the claims
compare the log-analysis path against. -/

/-- Modelled from the spec: the `RunningStat` record of §3 — running
`min/max/sum/count` per numeric parameter; `count == 0 ⇒ min/max undefined`
(`none` here). The repository source has no such class. -/
structure RunningStat where
  sum : ℚ
  count : Nat
  min : Option ℚ
  max : Option ℚ
  deriving DecidableEq, Repr

def initRunning : RunningStat := ⟨0, 0, none, none⟩

/-- Modelled from the spec (§4.3 `observe`): `count += 1; sum += value;
min = min(min, value); max = max(max, value)` for one non-absent value. -/
def RunningStat.observe (st : RunningStat) (v : ℚ) : RunningStat :=
  { sum := st.sum + v
    count := st.count + 1
    min := some (optMin st.min v)
    max := some (optMax st.max v) }

/-- Modelled from the spec: an absent sample is excluded from aggregation. -/
def observeOpt (st : RunningStat) (v : Option ℚ) : RunningStat :=
  match v with
  | none => st
  | some x => st.observe x

/-- Modelled from the spec (§4.3 `snapshot`): min, max, and `sum/count`, the
average being absent when `count = 0`. -/
def RunningStat.snapshot (st : RunningStat) : StatResult :=
  { min := st.min
    max := st.max
    avg := if st.count = 0 then none else some (st.sum / (st.count : ℚ)) }

/-- One per-tick record: a timestamp and one value-or-absent per requested
parameter, in request order (the spec's `Record`). -/
structure Record where
  ts : String
  samples : List (Option ℚ)
  deriving DecidableEq, Repr

/-- Modelled from the spec: feeding a record stream through a fresh
aggregator, one `RunningStat` per requested parameter. -/
def onlineSnapshot (n : Nat) (recs : List Record) : List StatResult :=
  (foldRows observeOpt initRunning n (recs.map Record.samples)).map
    RunningStat.snapshot

/-- `log_to_csv`'s cell format (line 73): `str(response.value)` for a
non-null response, the literal "NULL" otherwise. -/
def toCell : Option ℚ → Cell
  | some v => Cell.num v
  | none => Cell.nullMark

/-- `log_to_csv`'s row format (lines 70–74): the timestamp, then one cell per
requested command. -/
def toRow (r : Record) : Row :=
  { timestamp := r.ts, cells := r.samples.map toCell }

/-! ## The adapter connection (external `obd` library, modelled)

Commands are identified by their string names (`str(cmd)`). `query` is the
adapter's response table for sensor commands (`none` models a response
with `is_null()`); `dtc` and `clear_ok` model the `GET_DTC` / `CLEAR_DTC`
responses; `isOpen` the transport, released by the idempotent `close()`. -/
structure Connection where
  is_connected : Bool
  isOpen : Bool
  supported_commands : List String
  query : String → Option ℚ
  dtc : Option (List String)
  clear_ok : Bool

/-- python-obd's `OBD.close()`: releases the port; calling it on an
already-closed connection leaves it closed. -/
def Connection.close (c : Connection) : Connection :=
  { c with isOpen := false }

/-! ## `OBDDiagnosticTool` (`src/obd_reader.py`) -/

/-- The tool state: `connection` is `None` until `connect`, and
`supported_commands` starts empty and is captured at connect time. -/
structure OBDDiagnosticTool where
  connection : Option Connection
  supported_commands : List String

/-- `OBDDiagnosticTool.connect` (lines 17–27): store the fresh connection;
when it reports connected, capture `supported_commands` and return `True`,
otherwise return `False` (the handle stays assigned, the set stays as-is). -/
def connect (t : OBDDiagnosticTool) (c : Connection) :
    OBDDiagnosticTool × Bool :=
  if c.is_connected then
    ({ connection := some c, supported_commands := c.supported_commands }, true)
  else
    ({ t with connection := some c }, false)

/-- `OBDDiagnosticTool.get_fault_codes` (lines 29–37): empty list without a
connection or on a null response, otherwise the response value. Note that the
`GET_DTC` query is issued unconditionally, with no supported-set check. -/
def get_fault_codes (t : OBDDiagnosticTool) : List String :=
  match t.connection with
  | none => []
  | some c =>
      match c.dtc with
      | none => []
      | some codes => codes

/-- `OBDDiagnosticTool.clear_fault_codes` (lines 39–45): `False` without a
connection, otherwise `not response.is_null()`. -/
def clear_fault_codes (t : OBDDiagnosticTool) : Bool :=
  match t.connection with
  | none => false
  | some c => c.clear_ok

/-- The three `(command, key)` pairs of `get_vehicle_info` (lines 53–57). -/
def vehicleCommands : List (String × String) :=
  [("VIN", "VIN"), ("ELM_VERSION", "ELM Version"),
   ("ELM_VOLTAGE", "Battery Voltage")]

/-- The loop body of `get_vehicle_info` (lines 59–63) over a command list:
a command is queried only when found in the captured supported set, a
non-null response adds an entry. The second component counts the adapter
round trips issued. -/
def vehicleFold (sup : List String) (q : String → Option ℚ)
    (cmds : List (String × String)) (acc : List (String × ℚ) × Nat) :
    List (String × ℚ) × Nat :=
  cmds.foldl
    (fun acc cmd =>
      if cmd.1 ∈ sup then
        match q cmd.1 with
        | some v => (acc.1 ++ [(cmd.2, v)], acc.2 + 1)
        | none => (acc.1, acc.2 + 1)
      else acc)
    acc

/-- `OBDDiagnosticTool.get_vehicle_info` (lines 47–65), with the `str`
rendering of values elided: empty mapping without a connection; otherwise
query only the commands found in the captured supported set. -/
def get_vehicle_info (t : OBDDiagnosticTool) : List (String × ℚ) × Nat :=
  match t.connection with
  | none => ([], 0)
  | some c => vehicleFold t.supported_commands c.query vehicleCommands ([], 0)

/-- The four monitored keys of `monitor_live_data` (lines 72–84); the key
doubles as the command name. -/
def monitorKeys : List String := ["RPM", "Speed", "Throttle Position",
  "Engine Load"]

/-- The initial `data` dict of `monitor_live_data`: every key present, each
with an empty list. -/
def initData : List (String × List ℚ) := monitorKeys.map (fun k => (k, []))

/-- `data[key].append(value)`. -/
def appendData (d : List (String × List ℚ)) (k : String) (v : ℚ) :
    List (String × List ℚ) :=
  d.map (fun p => if p.1 = k then (p.1, p.2 ++ [v]) else p)

/-- The inner `for` loop of `monitor_live_data` (lines 88–92) over a key
list, with the tick's adapter responses `q`: a key is queried only when it is
in the captured supported set, and its value is appended only when the
response is non-null — a null response adds nothing for that key. The second
component counts adapter round trips. -/
def monitorFold (sup : List String) (q : String → Option ℚ)
    (keys : List String) (st : List (String × List ℚ) × Nat) :
    List (String × List ℚ) × Nat :=
  keys.foldl
    (fun acc key =>
      if key ∈ sup then
        match q key with
        | some v => (appendData acc.1 key v, acc.2 + 1)
        | none => (acc.1, acc.2 + 1)
      else acc)
    st

/-- One full pass of the inner loop: all four monitored keys. -/
def monitorTick (sup : List String) (q : String → Option ℚ)
    (st : List (String × List ℚ) × Nat) : List (String × List ℚ) × Nat :=
  monitorFold sup q monitorKeys st

/-- `OBDDiagnosticTool.monitor_live_data` (lines 67–95): the empty dict
without a connection; otherwise one tick per element of `qs` (the adapter's
responses at that tick), starting from the four empty lists. -/
def monitor_live_data (t : OBDDiagnosticTool)
    (qs : List (String → Option ℚ)) : List (String × List ℚ) :=
  match t.connection with
  | none => []
  | some _ =>
      (qs.foldl (fun d q => (monitorTick t.supported_commands q (d, 0)).1)
        initData)

/-- `OBDDiagnosticTool.close` (lines 97–100): close the underlying
connection when one is present; the `connection` attribute itself is never
reset. -/
def OBDDiagnosticTool.close (t : OBDDiagnosticTool) : OBDDiagnosticTool :=
  match t.connection with
  | none => t
  | some c => { t with connection := some c.close }

/-! ## `OBDDataLogger` (`src/data_logger.py`) -/

/-- The logger state: only the connection handle matters to the claims. -/
structure OBDDataLogger where
  connection : Option Connection

/-- The row built by one pass of `log_to_csv`'s loop body (lines 70–74) with
the tick's adapter responses `q`: every requested command is queried —
`log_to_csv` consults no supported set — and written as `str(value)` or
"NULL". Returns the row and the number of adapter round trips issued. -/
def logRow (q : String → Option ℚ) (ts : String) (cmds : List String) :
    Row × Nat :=
  cmds.foldl
    (fun acc cmd =>
      ({ acc.1 with cells := acc.1.cells ++ [toCell (q cmd)] }, acc.2 + 1))
    ({ timestamp := ts, cells := [] }, 0)

/-- The data rows written by `log_to_csv` across a run, one tick per element
of `ticks` (timestamp and adapter responses at that tick). -/
def logRows (cmds : List String) (ticks : List (String × (String → Option ℚ))) :
    List Row :=
  ticks.map (fun tk => (logRow tk.2 tk.1 cmds).1)

/-- `OBDDataLogger.close` (lines 235–239): same shape as the reader's
`close`; it additionally logs a message each time, but the state change is
closing the underlying connection when one is present. -/
def OBDDataLogger.close (l : OBDDataLogger) : OBDDataLogger :=
  match l.connection with
  | none => l
  | some c => { connection := some c.close }

/-! ## Loop scheduling (`log_to_csv` line 75, `monitor_live_data` line 93)

Both polling loops end each iteration with a plain `time.sleep(interval)`
after the tick's work. With `work i` the time tick `i`'s queries take, the
instant at which tick `k` begins is therefore recursively `previous start +
work + interval`. The spec's clock-aligned schedule is given alongside for
comparison. -/

/-- Tick start times as the code produces them: tick 0 starts at `start`;
each later tick starts when the previous tick's work and the fixed
`sleep(interval)` have both elapsed. -/
def codeTickStart (start interval : ℚ) (work : Nat → ℚ) : Nat → ℚ
  | 0 => start
  | k + 1 => codeTickStart start interval work k + work k + interval

/-- Modelled from the spec: the clock-aligned schedule `start + k*interval`
(tick `k`'s deadline; the sleep after tick `k` ends at `start +
(k+1)*interval`). -/
def alignedTickStart (start interval : ℚ) (k : Nat) : ℚ :=
  start + (k : ℚ) * interval

/-! ## `DiagnosticReportGenerator` (`src/report_generator.py`) -/

/-- The generator state: only the connection handle matters to the claims. -/
structure DiagnosticReportGenerator where
  connection : Option Connection

/-- The ten sensors of `collect_sensor_data` (lines 113–124). -/
def sensorNames : List String :=
  ["RPM", "Speed", "Throttle Position", "Engine Load", "Coolant Temp",
   "Intake Temp", "MAF", "O2 Voltage", "Fuel Level", "Timing Advance"]

/-- `DiagnosticReportGenerator.collect_sensor_data` (lines 108–135), `str`
rendering elided: empty mapping without a connection; otherwise every sensor
is queried (no supported-set check) and non-null responses are recorded. -/
def collect_sensor_data (g : DiagnosticReportGenerator) :
    List (String × ℚ) :=
  match g.connection with
  | none => []
  | some c =>
      sensorNames.foldl
        (fun acc name =>
          match c.query name with
          | some v => acc ++ [(name, v)]
          | none => acc)
        []

/-- The data dict assembled by `generate_report` (lines 279–286) and passed
to `generate_html_report`. -/
structure ReportData where
  vehicle_info : List (String × String)
  dtc_codes : List (String × String)
  sensor_data : List (String × String)
  graphs : List (String × String)
  deriving DecidableEq, Repr

/-- The rendered report, with the constant HTML boilerplate elided: the
template embeds the generation timestamp (`Generated: ...`, line 200/256)
and each of the four data sections verbatim, so the rendering is captured by
this tuple of its variable parts. -/
structure RenderedReport where
  generatedAt : String
  vehicle_info : List (String × String)
  dtc_codes : List (String × String)
  sensor_data : List (String × String)
  graphs : List (String × String)
  deriving DecidableEq, Repr

/-- The template rendering of `generate_html_report` (lines 254–261): the
current clock reading `now2` (`datetime.now()` at line 256) plus the four
sections of the input data. -/
def renderReport (now2 : String) (d : ReportData) : RenderedReport :=
  { generatedAt := now2
    vehicle_info := d.vehicle_info
    dtc_codes := d.dtc_codes
    sensor_data := d.sensor_data
    graphs := d.graphs }

/-- `DiagnosticReportGenerator.generate_html_report` (lines 168–269): reads
the clock twice — `now1` (line 170) names the output file, `now2` (line 256)
is rendered into the report — then writes the rendered report to that file.
The returned pair is the written file's name and content. -/
def generate_html_report (now1 now2 : String) (d : ReportData) :
    String × RenderedReport :=
  ("diagnostic_report_" ++ now1 ++ ".html", renderReport now2 d)

/-! ## Auxiliary definitions used by the statements and proofs -/

/-- Whether a cell is a numeric rendering. -/
def Cell.isNum : Cell → Bool
  | .num _ => true
  | _ => false

/-- Whether a cell is the explicit "NULL" absence marker. -/
def Cell.isAbsent : Cell → Bool
  | .nullMark => true
  | _ => false

/-- A well-formed log cell, as `log_to_csv` itself writes them: either the
absence marker or a numeric rendering (corrupted text excluded). -/
def Cell.wf (c : Cell) : Prop := c.isNum = true ∨ c.isAbsent = true

instance (c : Cell) : Decidable (Cell.wf c) := by
  unfold Cell.wf
  infer_instance

/-- Replace corrupted text by the absence marker; `_analyze_csv` treats the
two identically (both fail `float` and are skipped). -/
def sanitizeCell : Cell → Cell
  | .malformed _ => Cell.nullMark
  | c => c

def sanitizeRow (r : Row) : Row :=
  { r with cells := r.cells.map sanitizeCell }

/-- Column `i` of a CSV log: the cells the scan reads for header `i`, rows
missing that field contributing nothing. -/
def colCells (rows : List Row) (i : Nat) : List Cell :=
  rows.filterMap (fun r => r.cells[i]?)

/-- One step of the running-minimum computation. -/
def minFoldStep (a : Option ℚ) (v : ℚ) : Option ℚ := some (optMin a v)

/-- One step of the running-maximum computation. -/
def maxFoldStep (a : Option ℚ) (v : ℚ) : Option ℚ := some (optMax a v)

/-- First-match association lookup (Python dict access, keys unique). -/
def findStat : List (String × ParamStats) → String → Option ParamStats
  | [], _ => none
  | p :: ps, k => if p.1 = k then some p.2 else findStat ps k

/-- First-match lookup in the monitor's data dict. -/
def findData : List (String × List ℚ) → String → Option (List ℚ)
  | [], _ => none
  | p :: ps, k => if p.1 = k then some p.2 else findData ps k

/-- The values recorded under key `k` in a run of `(param, value)` pairs, in
order. -/
def obsList (k : String) (kvs : List (String × Option Cell)) :
    List (Option Cell) :=
  (kvs.filter (fun kv => kv.1 = k)).map Prod.snd

/-- All observations recorded for parameter `k` across a JSON log. -/
def jsonObs (k : String) (entries : List (List (String × Option Cell))) :
    List (Option Cell) :=
  obsList k entries.flatten

/-- A well-formed JSON log value: JSON `null` or a numeric rendering. -/
def jsonWf : Option Cell → Bool
  | none => true
  | some c => c.isNum

/-- Whether a cell is corrupted text (neither numeric nor the marker). -/
def Cell.isMalformed : Cell → Bool
  | .malformed _ => true
  | _ => false

/-- A concrete tick of adapter responses in which the RPM query is null and
every other query returns 5. -/
def c3q : String → Option ℚ :=
  fun k => if k = "RPM" then none else some 5

/-- A concrete open connection. -/
def c8conn : Connection :=
  { is_connected := true, isOpen := true, supported_commands := [],
    query := fun _ => none, dtc := none, clear_ok := false }

/-- A concrete tool holding `c8conn`. -/
def c8tool : OBDDiagnosticTool :=
  { connection := some c8conn, supported_commands := [] }

/-- A concrete logger holding `c8conn`. -/
def c8logger : OBDDataLogger := { connection := some c8conn }

/-- A concrete three-row, one-column log: values 2 and 5 with one absent
reading in between. -/
def c7rows : List Row :=
  [⟨"t1", [Cell.num 2]⟩, ⟨"t2", [Cell.nullMark]⟩, ⟨"t3", [Cell.num 5]⟩]

/-- A concrete two-row, two-column log whose second column is all-absent. -/
def c2rows : List Row :=
  [⟨"a", [Cell.num 3, Cell.nullMark]⟩, ⟨"b", [Cell.nullMark, Cell.nullMark]⟩]

/-- A concrete JSON log: one numeric reading and one null for "RPM". -/
def c2entries : List (List (String × Option Cell)) :=
  [[("RPM", some (Cell.num 4))], [("RPM", none)]]

/-- A concrete JSON log containing a corrupted value for "RPM". -/
def c6entries : List (List (String × Option Cell)) :=
  [[("RPM", some (Cell.num 4))], [("RPM", some (Cell.malformed 7))]]

/-- The relation between the spec's running statistics and the analysis
accumulator: same sum, count, min and max (the accumulator carries the raw
values, the running form only their fold). -/
def statRel (rs : RunningStat) (ps : ParamStats) : Prop :=
  rs.sum = ps.values.sum ∧ rs.count = ps.values.length ∧
    rs.min = ps.min ∧ rs.max = ps.max

/-! ## Lemmas: the aligned row fold decomposes into columns -/

theorem stepZip_getElem? {σ α : Type} (f : σ → α → σ) (sts : List σ)
    (row : List α) (i : Nat) :
    (stepZip f sts row)[i]? =
      sts[i]?.map (fun s =>
        match row[i]? with
        | some a => f s a
        | none => s) := by
  induction sts generalizing row i with
  | nil => simp [stepZip]
  | cons st sts ih =>
      cases row with
      | nil =>
          cases h : (st :: sts)[i]? <;> simp [stepZip, h]
      | cons a as =>
          cases i with
          | zero => simp [stepZip]
          | succ i => simpa [stepZip] using ih as i

theorem foldl_stepZip_getElem? {σ α : Type} (f : σ → α → σ)
    (rows : List (List α)) (sts : List σ) (i : Nat) :
    (rows.foldl (stepZip f) sts)[i]? =
      sts[i]?.map (fun s => ((rows.filterMap (fun r => r[i]?)).foldl f s)) := by
  induction rows generalizing sts with
  | nil => cases h : sts[i]? <;> simp [h]
  | cons r rows ih =>
      rw [List.foldl_cons, ih, stepZip_getElem?, Option.map_map]
      cases h : sts[i]? with
      | none => simp
      | some s =>
          cases hr : r[i]? with
          | none => simp [List.filterMap_cons, hr, Function.comp]
          | some a => simp [List.filterMap_cons, hr, Function.comp]

theorem foldRows_getElem? {σ α : Type} (f : σ → α → σ) (i0 : σ) (n : Nat)
    (rows : List (List α)) (i : Nat) :
    (foldRows f i0 n rows)[i]? =
      if i < n then some ((rows.filterMap (fun r => r[i]?)).foldl f i0)
      else none := by
  unfold foldRows
  rw [foldl_stepZip_getElem?]
  by_cases h : i < n
  · simp [List.getElem?_replicate, h]
  · have hn : (List.replicate n i0)[i]? = none := by
      apply List.getElem?_eq_none
      simpa using Nat.le_of_not_lt h
    simp [hn, h]

/-! ## Lemmas: the per-column accumulator -/

theorem foldl_updateCell_values (cs : List Cell) (st : ParamStats) :
    (cs.foldl updateCell st).values = st.values ++ cs.filterMap parseFloat := by
  induction cs generalizing st with
  | nil => simp
  | cons c cs ih =>
      cases h : parseFloat c <;>
        simp [List.foldl_cons, updateCell, h, ih, List.filterMap_cons]

theorem foldl_updateCell_min (cs : List Cell) (st : ParamStats) :
    (cs.foldl updateCell st).min =
      (cs.filterMap parseFloat).foldl minFoldStep st.min := by
  induction cs generalizing st with
  | nil => simp
  | cons c cs ih =>
      cases h : parseFloat c <;>
        simp [List.foldl_cons, updateCell, h, ih, List.filterMap_cons,
          minFoldStep]

theorem foldl_updateCell_max (cs : List Cell) (st : ParamStats) :
    (cs.foldl updateCell st).max =
      (cs.filterMap parseFloat).foldl maxFoldStep st.max := by
  induction cs generalizing st with
  | nil => simp
  | cons c cs ih =>
      cases h : parseFloat c <;>
        simp [List.foldl_cons, updateCell, h, ih, List.filterMap_cons,
          maxFoldStep]

theorem minFold_some (vs : List ℚ) (x : ℚ) :
    ∃ m, vs.foldl minFoldStep (some x) = some m ∧ m ≤ x ∧ ∀ v ∈ vs, m ≤ v := by
  induction vs generalizing x with
  | nil => exact ⟨x, rfl, le_refl x, by simp⟩
  | cons v vs ih =>
      obtain ⟨m, hm, hle, hall⟩ := ih (Min.min x v)
      refine ⟨m, ?_, ?_, ?_⟩
      · simpa [List.foldl_cons, minFoldStep, optMin] using hm
      · exact hle.trans (min_le_left x v)
      · intro u hu
        rcases List.mem_cons.mp hu with h | h
        · exact h ▸ hle.trans (min_le_right x v)
        · exact hall u h

theorem maxFold_some (vs : List ℚ) (x : ℚ) :
    ∃ m, vs.foldl maxFoldStep (some x) = some m ∧ x ≤ m ∧ ∀ v ∈ vs, v ≤ m := by
  induction vs generalizing x with
  | nil => exact ⟨x, rfl, le_refl x, by simp⟩
  | cons v vs ih =>
      obtain ⟨m, hm, hle, hall⟩ := ih (Max.max x v)
      refine ⟨m, ?_, ?_, ?_⟩
      · simpa [List.foldl_cons, maxFoldStep, optMax] using hm
      · exact (le_max_left x v).trans hle
      · intro u hu
        rcases List.mem_cons.mp hu with h | h
        · exact h ▸ (le_max_right x v).trans hle
        · exact hall u h

theorem minFold_cons (v : ℚ) (vs : List ℚ) :
    (v :: vs).foldl minFoldStep none = vs.foldl minFoldStep (some v) := by
  simp [List.foldl_cons, minFoldStep, optMin]

theorem maxFold_cons (v : ℚ) (vs : List ℚ) :
    (v :: vs).foldl maxFoldStep none = vs.foldl maxFoldStep (some v) := by
  simp [List.foldl_cons, maxFoldStep, optMax]

/-! ## Lemmas: simulation between the spec aggregator and the analysis -/

theorem statRel_fold (col : List (Option ℚ)) (rs : RunningStat)
    (ps : ParamStats) (h : statRel rs ps) :
    statRel (col.foldl observeOpt rs) ((col.map toCell).foldl updateCell ps) := by
  induction col generalizing rs ps with
  | nil => simpa using h
  | cons v col ih =>
      cases v with
      | none =>
          simpa [List.foldl_cons, observeOpt, toCell, updateCell, parseFloat]
            using ih rs ps h
      | some x =>
          obtain ⟨h1, h2, h3, h4⟩ := h
          simp only [List.map_cons, List.foldl_cons, observeOpt]
          apply ih
          refine ⟨?_, ?_, ?_, ?_⟩ <;>
            simp [RunningStat.observe, updateCell, toCell, parseFloat,
              h1, h2, h3, h4]

theorem statRel_snapshot (rs : RunningStat) (ps : ParamStats)
    (h : statRel rs ps) : rs.snapshot = finalize ps := by
  obtain ⟨h1, h2, h3, h4⟩ := h
  unfold RunningStat.snapshot finalize
  by_cases hv : ps.values = []
  · simp [h1, h2, h3, h4, hv]
  · have hne : ps.values.length ≠ 0 := by
      simpa [List.length_eq_zero] using hv
    simp [h1, h2, h3, h4, hne, List.isEmpty_iff, hv]

theorem record_columns (recs : List Record) (i : Nat) :
    ((recs.map toRow).map Row.cells).filterMap (fun r => r[i]?) =
      ((recs.map Record.samples).filterMap (fun r => r[i]?)).map toCell := by
  rw [List.map_map, List.map_filterMap, List.filterMap_map, List.filterMap_map]
  congr 1
  funext r
  simp [toRow, Function.comp, List.getElem?_map]

/-- C1: for every finite sequence of records (timestamp plus one
value-or-absent per requested parameter), aggregating online with the spec's
running statistics and aggregating offline — writing each record in
`log_to_csv`'s row format and re-reading it through `_analyze_csv` — yield
identical per-parameter min, max and average (exactly, in the rational
model, hence within floating-point tolerance). -/
theorem c1_online_offline_equivalence (n : Nat) (recs : List Record) :
    onlineSnapshot n recs = analyze_csv n (recs.map toRow) := by
  apply List.ext_getElem?
  intro i
  unfold onlineSnapshot analyze_csv csvFold
  rw [List.getElem?_map, List.getElem?_map, foldRows_getElem?,
    foldRows_getElem?]
  by_cases h : i < n
  · rw [if_pos h, if_pos h, Option.map_some', Option.map_some', record_columns]
    exact congrArg some
      (statRel_snapshot _ _ (statRel_fold _ _ _ ⟨rfl, rfl, rfl, rfl⟩))
  · rw [if_neg h, if_neg h]
    rfl

theorem csvFold_getElem? (n : Nat) (rows : List Row) (i : Nat) (hi : i < n) :
    (csvFold n rows)[i]? =
      some ((colCells rows i).foldl updateCell initStats) := by
  unfold csvFold colCells
  rw [foldRows_getElem?, if_pos hi, List.filterMap_map]
  rfl

/-! ## Lemmas: lookup in the JSON analysis accumulator -/

theorem findStat_append_some (xs ys : List (String × ParamStats)) (k : String)
    (s : ParamStats) (h : findStat xs k = some s) :
    findStat (xs ++ ys) k = some s := by
  induction xs with
  | nil => simp [findStat] at h
  | cons p ps ih =>
      by_cases hp : p.1 = k
      · simpa [findStat, hp] using by simpa [findStat, hp] using h
      · simp only [findStat, if_neg hp] at h
        simpa [findStat, hp] using ih h

theorem findStat_append_none (xs ys : List (String × ParamStats)) (k : String)
    (h : findStat xs k = none) :
    findStat (xs ++ ys) k = findStat ys k := by
  induction xs with
  | nil => simp
  | cons p ps ih =>
      by_cases hp : p.1 = k
      · simp [findStat, hp] at h
      · simp only [findStat, if_neg hp] at h
        simpa [findStat, hp] using ih h

theorem findStat_isSome_of_any (sts : List (String × ParamStats)) (k : String)
    (h : sts.any (fun p => p.1 = k) = true) : (findStat sts k).isSome := by
  induction sts with
  | nil => simp at h
  | cons p ps ih =>
      by_cases hp : p.1 = k
      · simp [findStat, hp]
      · simp only [List.any_cons, Bool.or_eq_true, decide_eq_true_eq] at h
        rcases h with h | h
        · exact absurd h hp
        · simpa [findStat, hp] using ih h

theorem findStat_none_of_not_any (sts : List (String × ParamStats))
    (k : String) (h : sts.any (fun p => p.1 = k) = false) :
    findStat sts k = none := by
  induction sts with
  | nil => rfl
  | cons p ps ih =>
      simp only [List.any_cons, Bool.or_eq_false_iff, decide_eq_false_iff_not]
        at h
      simpa [findStat, h.1] using ih h.2

theorem findStat_ensure_self (sts : List (String × ParamStats)) (k : String) :
    findStat (ensureParam sts k) k =
      some ((findStat sts k).getD initStats) := by
  unfold ensureParam
  cases hany : sts.any (fun p => p.1 = k) with
  | true =>
      obtain ⟨s, hs⟩ := Option.isSome_iff_exists.mp
        (findStat_isSome_of_any sts k hany)
      simp [hany, hs]
  | false =>
      have h0 : findStat sts k = none := findStat_none_of_not_any sts k hany
      rw [if_neg (by simp [hany]), findStat_append_none sts _ k h0, h0]
      simp [findStat]

theorem findStat_ensure_other (sts : List (String × ParamStats))
    (k k' : String) (h : k' ≠ k) :
    findStat (ensureParam sts k) k' = findStat sts k' := by
  unfold ensureParam
  cases hany : sts.any (fun p => p.1 = k) with
  | true => simp [hany]
  | false =>
      rw [if_neg (by simp [hany])]
      cases hf : findStat sts k' with
      | some s => exact findStat_append_some sts _ k' s hf
      | none =>
          rw [findStat_append_none sts _ k' hf]
          have hkk : ¬(k = k') := fun hk => h hk.symm
          simp [findStat, hkk]

theorem findStat_update_self (sts : List (String × ParamStats)) (k : String)
    (v : Option Cell) :
    findStat (updateParam sts k v) k =
      (findStat sts k).map (fun st => jsonUpdate st v) := by
  induction sts with
  | nil => rfl
  | cons p ps ih =>
      by_cases hp : p.1 = k
      · simp [updateParam, findStat, hp]
      · simpa [updateParam, findStat, hp] using ih

theorem findStat_update_other (sts : List (String × ParamStats))
    (k k' : String) (v : Option Cell) (h : k' ≠ k) :
    findStat (updateParam sts k v) k' = findStat sts k' := by
  induction sts with
  | nil => rfl
  | cons p ps ih =>
      by_cases hp : p.1 = k
      · have hpk : ¬(p.1 = k') := by
          rw [hp]; exact fun hk => h hk.symm
        simp only [updateParam, List.map_cons, if_pos hp] at *
        simpa [findStat, hpk] using ih
      · by_cases hp' : p.1 = k'
        · simp [updateParam, findStat, hp, hp', h]
        · simp only [updateParam, List.map_cons, if_neg hp] at *
          simpa [findStat, hp'] using ih

theorem findStat_jsonStep (sts : List (String × ParamStats))
    (kv : String × Option Cell) (k : String) :
    findStat (jsonStep sts kv) k =
      if kv.1 = k then
        some (jsonUpdate ((findStat sts k).getD initStats) kv.2)
      else findStat sts k := by
  unfold jsonStep
  by_cases hk : kv.1 = k
  · subst hk
    rw [if_pos rfl, findStat_update_self, findStat_ensure_self]
    rfl
  · rw [if_neg hk, findStat_update_other _ _ _ _ (fun h => hk h.symm),
      findStat_ensure_other _ _ _ (fun h => hk h.symm)]

theorem findStat_foldl_jsonStep (kvs : List (String × Option Cell))
    (sts : List (String × ParamStats)) (k : String) :
    findStat (kvs.foldl jsonStep sts) k =
      match findStat sts k with
      | some st => some ((obsList k kvs).foldl jsonUpdate st)
      | none =>
          if kvs.any (fun kv => kv.1 = k) then
            some ((obsList k kvs).foldl jsonUpdate initStats)
          else none := by
  induction kvs generalizing sts with
  | nil => cases h : findStat sts k <;> simp [obsList, h]
  | cons kv kvs ih =>
      rw [List.foldl_cons, ih, findStat_jsonStep]
      by_cases hk : kv.1 = k
      · rw [if_pos hk]
        cases h : findStat sts k <;>
          simp [obsList, List.filter_cons, hk, h, List.foldl_cons]
      · rw [if_neg hk]
        have hd : (decide (kv.1 = k)) = false := by simp [hk]
        cases h : findStat sts k with
        | some st => simp [obsList, List.filter_cons, hk, h]
        | none =>
            simp only [h, List.any_cons, hd, Bool.false_or]
            simp [obsList, List.filter_cons, hd]

theorem jsonFold_eq_flatten (entries : List (List (String × Option Cell))) :
    jsonFold entries = entries.flatten.foldl jsonStep [] :=
  (List.foldl_flatten _ _ _).symm

theorem foldl_jsonUpdate_values (obs : List (Option Cell)) (st : ParamStats) :
    (obs.foldl jsonUpdate st).values =
      st.values ++ obs.filterMap (fun v => v.bind parseFloat) := by
  induction obs generalizing st with
  | nil => simp
  | cons v obs ih =>
      cases v with
      | none => simpa [List.foldl_cons, jsonUpdate, List.filterMap_cons] using ih st
      | some c =>
          cases h : parseFloat c <;>
            simp [List.foldl_cons, jsonUpdate, updateCell, h, ih,
              List.filterMap_cons]

/-! ## Lemmas: counting parsed values in well-formed logs -/

theorem parse_count_wf (cs : List Cell) (h : ∀ c ∈ cs, Cell.wf c) :
    (cs.filterMap parseFloat).length =
      (cs.filter (fun c => !(c.isAbsent))).length := by
  induction cs with
  | nil => rfl
  | cons c cs ih =>
      have hc := h c (List.mem_cons_self c cs)
      have ht : ∀ x ∈ cs, Cell.wf x := fun x hx =>
        h x (List.mem_cons_of_mem c hx)
      cases c with
      | num q =>
          simp [parseFloat, Cell.isAbsent, List.filterMap_cons,
            List.filter_cons, ih ht]
      | nullMark =>
          simp [parseFloat, Cell.isAbsent, List.filterMap_cons,
            List.filter_cons, ih ht]
      | malformed t =>
          exact absurd hc (by simp [Cell.wf, Cell.isNum, Cell.isAbsent])

theorem json_parse_count_wf (obs : List (Option Cell))
    (h : ∀ v ∈ obs, jsonWf v = true) :
    (obs.filterMap (fun v => v.bind parseFloat)).length =
      (obs.filter (fun v => v.isSome)).length := by
  induction obs with
  | nil => rfl
  | cons v obs ih =>
      have hv := h v (List.mem_cons_self v obs)
      have ht : ∀ x ∈ obs, jsonWf x = true := fun x hx =>
        h x (List.mem_cons_of_mem v hx)
      cases v with
      | none => simp [List.filterMap_cons, List.filter_cons, ih ht]
      | some c =>
          cases c with
          | num q =>
              simpa [parseFloat, List.filterMap_cons, List.filter_cons]
                using ih ht
          | nullMark => exact absurd hv (by simp [jsonWf, Cell.isNum])
          | malformed t => exact absurd hv (by simp [jsonWf, Cell.isNum])

theorem colCells_wf (rows : List Row) (i : Nat)
    (hwf : ∀ r ∈ rows, ∀ c ∈ r.cells, Cell.wf c) :
    ∀ c ∈ colCells rows i, Cell.wf c := by
  intro c hc
  obtain ⟨r, hr, hg⟩ := List.mem_filterMap.mp hc
  exact hwf r hr c (List.getElem?_mem hg)

theorem jsonObs_wf (entries : List (List (String × Option Cell))) (k : String)
    (hwfj : ∀ e ∈ entries, ∀ kv ∈ e, jsonWf kv.2 = true) :
    ∀ v ∈ jsonObs k entries, jsonWf v = true := by
  intro v hv
  unfold jsonObs obsList at hv
  obtain ⟨kv, hkv, hsnd⟩ := List.mem_map.mp hv
  have hkv' := (List.mem_filter.mp hkv).1
  obtain ⟨e, he, hin⟩ := List.mem_flatten.mp hkv'
  exact hsnd ▸ hwfj e he kv hin

theorem foldl_jsonUpdate_min (obs : List (Option Cell)) (st : ParamStats) :
    (obs.foldl jsonUpdate st).min =
      (obs.filterMap (fun v => v.bind parseFloat)).foldl minFoldStep
        st.min := by
  induction obs generalizing st with
  | nil => simp
  | cons v obs ih =>
      cases v with
      | none =>
          simpa [List.foldl_cons, jsonUpdate, List.filterMap_cons] using ih st
      | some c =>
          cases h : parseFloat c <;>
            simp [List.foldl_cons, jsonUpdate, updateCell, h, ih,
              List.filterMap_cons, minFoldStep]

theorem foldl_jsonUpdate_max (obs : List (Option Cell)) (st : ParamStats) :
    (obs.foldl jsonUpdate st).max =
      (obs.filterMap (fun v => v.bind parseFloat)).foldl maxFoldStep
        st.max := by
  induction obs generalizing st with
  | nil => simp
  | cons v obs ih =>
      cases v with
      | none =>
          simpa [List.foldl_cons, jsonUpdate, List.filterMap_cons] using ih st
      | some c =>
          cases h : parseFloat c <;>
            simp [List.foldl_cons, jsonUpdate, updateCell, h, ih,
              List.filterMap_cons, maxFoldStep]

theorem findStat_jsonFold_eq (entries : List (List (String × Option Cell)))
    (k : String) (stj : ParamStats)
    (h : findStat (jsonFold entries) k = some stj) :
    stj = (jsonObs k entries).foldl jsonUpdate initStats := by
  rw [jsonFold_eq_flatten, findStat_foldl_jsonStep] at h
  simp only [findStat] at h
  split at h
  · exact (Option.some_inj.mp h).symm
  · exact absurd h (by simp)

/-- The statistics invariant, for any accumulator whose `min` and `max`
fields are the running folds of its `values` — the shape both analysis
paths produce. -/
theorem stat_invariants_of_folds (st : ParamStats)
    (hmin : st.min = st.values.foldl minFoldStep none)
    (hmax : st.max = st.values.foldl maxFoldStep none) :
    (st.values.length = 0 →
      (finalize st).min = none ∧ (finalize st).max = none ∧
        (finalize st).avg = none) ∧
    (0 < st.values.length →
      (∀ v ∈ st.values, ∃ m M, (finalize st).min = some m ∧
        (finalize st).max = some M ∧ m ≤ v ∧ v ≤ M) ∧
      (finalize st).avg = some (st.values.sum / (st.values.length : ℚ))) := by
  constructor
  · intro hlen
    have hnil : st.values = [] := List.length_eq_zero.mp hlen
    refine ⟨?_, ?_, ?_⟩ <;> simp [finalize, hmin, hmax, hnil]
  · intro hpos
    have hne : st.values ≠ [] := by
      intro hnil; rw [hnil] at hpos; exact absurd hpos (by simp)
    obtain ⟨v0, vs, hcons⟩ := List.exists_cons_of_ne_nil hne
    constructor
    · intro v hv
      obtain ⟨m, hm, hmle, hmall⟩ := minFold_some vs v0
      obtain ⟨M, hM, hMle, hMall⟩ := maxFold_some vs v0
      refine ⟨m, M, ?_, ?_, ?_, ?_⟩
      · simp only [finalize]
        rw [hmin, hcons, minFold_cons, hm]
      · simp only [finalize]
        rw [hmax, hcons, maxFold_cons, hM]
      · rcases List.mem_cons.mp (hcons ▸ hv) with h | h
        · exact h ▸ hmle
        · exact hmall v h
      · rcases List.mem_cons.mp (hcons ▸ hv) with h | h
        · exact h ▸ hMle
        · exact hMall v h
    · simp [finalize, List.isEmpty_iff, hne]

/-- C7: for every per-parameter accumulator produced by aggregation — the
`_analyze_csv` scan as well as the `_analyze_json` scan — count 0 means min
and max are still the non-finite initial values (`none` here, never finite)
and the average is undefined, and positive count means every observed value
is bounded by the reported min and max, with the reported average equal to
sum / count. -/
theorem c7_stat_invariants (n : Nat) (rows : List Row) (i : Nat) (hi : i < n)
    (st : ParamStats) (hst : (csvFold n rows)[i]? = some st)
    (entries : List (List (String × Option Cell))) (k : String)
    (stj : ParamStats) (hstj : findStat (jsonFold entries) k = some stj) :
    ((st.values.length = 0 →
      (finalize st).min = none ∧ (finalize st).max = none ∧
        (finalize st).avg = none) ∧
    (0 < st.values.length →
      (∀ v ∈ st.values, ∃ m M, (finalize st).min = some m ∧
        (finalize st).max = some M ∧ m ≤ v ∧ v ≤ M) ∧
      (finalize st).avg = some (st.values.sum / (st.values.length : ℚ)))) ∧
    ((stj.values.length = 0 →
      (finalize stj).min = none ∧ (finalize stj).max = none ∧
        (finalize stj).avg = none) ∧
    (0 < stj.values.length →
      (∀ v ∈ stj.values, ∃ m M, (finalize stj).min = some m ∧
        (finalize stj).max = some M ∧ m ≤ v ∧ v ≤ M) ∧
      (finalize stj).avg =
        some (stj.values.sum / (stj.values.length : ℚ)))) := by
  constructor
  · rw [csvFold_getElem? n rows i hi] at hst
    have hst' : st = (colCells rows i).foldl updateCell initStats :=
      (Option.some_inj.mp hst).symm
    have hval : st.values = (colCells rows i).filterMap parseFloat := by
      rw [hst', foldl_updateCell_values]; rfl
    apply stat_invariants_of_folds
    · rw [hval, hst', foldl_updateCell_min]; rfl
    · rw [hval, hst', foldl_updateCell_max]; rfl
  · have hstj' := findStat_jsonFold_eq entries k stj hstj
    have hvalj : stj.values =
        (jsonObs k entries).filterMap (fun v => v.bind parseFloat) := by
      rw [hstj', foldl_jsonUpdate_values]; rfl
    apply stat_invariants_of_folds
    · rw [hvalj, hstj', foldl_jsonUpdate_min]; rfl
    · rw [hvalj, hstj', foldl_jsonUpdate_max]; rfl

/-- C2: for every well-formed log analysed by `_analyze_csv` or
`_analyze_json`, each parameter's count — the number of values entering its
average — equals exactly the number of non-absent observations recorded for
that parameter, and a parameter whose observations are all absent yields an
entry whose average is absent (`none`), not zero. -/
theorem c2_absence_exclusion
    (n : Nat) (rows : List Row) (i : Nat) (hi : i < n)
    (hwf : ∀ r ∈ rows, ∀ c ∈ r.cells, Cell.wf c)
    (st : ParamStats) (hst : (csvFold n rows)[i]? = some st)
    (entries : List (List (String × Option Cell)))
    (hwfj : ∀ e ∈ entries, ∀ kv ∈ e, jsonWf kv.2 = true)
    (k : String) (stj : ParamStats)
    (hstj : findStat (jsonFold entries) k = some stj) :
    (st.values.length =
        ((colCells rows i).filter (fun c => !(c.isAbsent))).length ∧
      ((∀ c ∈ colCells rows i, c.isAbsent = true) →
        (finalize st).avg = none)) ∧
    (stj.values.length =
        ((jsonObs k entries).filter (fun v => v.isSome)).length ∧
      ((∀ v ∈ jsonObs k entries, v = none) → (finalize stj).avg = none)) := by
  rw [csvFold_getElem? n rows i hi] at hst
  have hst' : st = (colCells rows i).foldl updateCell initStats :=
    (Option.some_inj.mp hst).symm
  have hval : st.values = (colCells rows i).filterMap parseFloat := by
    rw [hst', foldl_updateCell_values]; rfl
  have hstj' : stj = (jsonObs k entries).foldl jsonUpdate initStats := by
    rw [jsonFold_eq_flatten, findStat_foldl_jsonStep] at hstj
    simp only [findStat] at hstj
    split at hstj
    · exact (Option.some_inj.mp hstj).symm
    · exact absurd hstj (by simp)
  have hvalj : stj.values =
      (jsonObs k entries).filterMap (fun v => v.bind parseFloat) := by
    rw [hstj', foldl_jsonUpdate_values]; rfl
  refine ⟨⟨?_, ?_⟩, ?_, ?_⟩
  · rw [hval]
    exact parse_count_wf _ (colCells_wf rows i hwf)
  · intro habs
    have hnil : st.values = [] := by
      rw [hval]
      apply List.filterMap_eq_nil_iff.mpr
      intro c hc
      have := habs c hc
      cases c with
      | num q => simp [Cell.isAbsent] at this
      | nullMark => rfl
      | malformed t => rfl
    simp [finalize, hnil]
  · rw [hvalj]
    exact json_parse_count_wf _ (jsonObs_wf entries k hwfj)
  · intro habs
    have hnil : stj.values = [] := by
      rw [hvalj]
      apply List.filterMap_eq_nil_iff.mpr
      intro v hv
      rw [habs v hv]
      rfl
    simp [finalize, hnil]

/-- Witness for C7 at the concrete logs `c7rows` (CSV: values 2 and 5, one
absent reading) and `c2entries` (JSON: value 4 and one null for "RPM"): both
accumulators are non-empty, their min/max bound each value and their
averages are sum over count. -/
theorem c7_stat_invariants_witness :
    ((0:Nat) < 1 ∧
      (csvFold 1 c7rows)[0]? = some ⟨some 2, some 5, [2, 5]⟩ ∧
      findStat (jsonFold c2entries) "RPM" = some ⟨some 4, some 4, [4]⟩) ∧
    (0 < (ParamStats.values ⟨some 2, some 5, [2, 5]⟩).length ∧
      0 < (ParamStats.values ⟨some 4, some 4, [4]⟩).length) ∧
    ((∀ v ∈ (ParamStats.values ⟨some 2, some 5, [2, 5]⟩), ∃ m M,
        (finalize ⟨some 2, some 5, [2, 5]⟩).min = some m ∧
        (finalize ⟨some 2, some 5, [2, 5]⟩).max = some M ∧ m ≤ v ∧ v ≤ M) ∧
      (finalize ⟨some 2, some 5, [2, 5]⟩).avg =
        some ((ParamStats.values ⟨some 2, some 5, [2, 5]⟩).sum /
          ((ParamStats.values ⟨some 2, some 5, [2, 5]⟩).length : ℚ))) ∧
    ((∀ v ∈ (ParamStats.values ⟨some 4, some 4, [4]⟩), ∃ m M,
        (finalize ⟨some 4, some 4, [4]⟩).min = some m ∧
        (finalize ⟨some 4, some 4, [4]⟩).max = some M ∧ m ≤ v ∧ v ≤ M) ∧
      (finalize ⟨some 4, some 4, [4]⟩).avg =
        some ((ParamStats.values ⟨some 4, some 4, [4]⟩).sum /
          ((ParamStats.values ⟨some 4, some 4, [4]⟩).length : ℚ))) :=
  ⟨⟨by decide, by decide, by decide⟩, ⟨by decide, by decide⟩,
    (c7_stat_invariants 1 c7rows 0 (by decide) ⟨some 2, some 5, [2, 5]⟩
      (by decide) c2entries "RPM" ⟨some 4, some 4, [4]⟩ (by decide)).1.2
      (by decide),
    (c7_stat_invariants 1 c7rows 0 (by decide) ⟨some 2, some 5, [2, 5]⟩
      (by decide) c2entries "RPM" ⟨some 4, some 4, [4]⟩ (by decide)).2.2
      (by decide)⟩

/-- Witness for C2 at the concrete logs `c2rows` (an all-absent CSV column)
and `c2entries` (one value, one null for "RPM"). -/
theorem c2_absence_exclusion_witness :
    (∀ r ∈ c2rows, ∀ c ∈ r.cells, Cell.wf c) ∧
    (∀ e ∈ c2entries, ∀ kv ∈ e, jsonWf kv.2 = true) ∧
    ((initStats.values.length =
        ((colCells c2rows 1).filter (fun c => !(c.isAbsent))).length ∧
      ((∀ c ∈ colCells c2rows 1, c.isAbsent = true) →
        (finalize initStats).avg = none)) ∧
     ((ParamStats.values ⟨some 4, some 4, [4]⟩).length =
        ((jsonObs "RPM" c2entries).filter (fun v => v.isSome)).length ∧
      ((∀ v ∈ jsonObs "RPM" c2entries, v = none) →
        (finalize ⟨some 4, some 4, [4]⟩).avg = none))) :=
  ⟨by decide, by decide,
    c2_absence_exclusion 2 c2rows 1 (by decide) (by decide) initStats
      (by decide) c2entries (by decide) "RPM" ⟨some 4, some 4, [4]⟩
      (by decide)⟩

/-! ## Claim C4: loop scheduling -/

/-- C4 counterexample: with interval 1 and one time unit of work per tick,
the code's loop (`sleep(interval)` after the work, `data_logger.py` line 75,
`obd_reader.py` line 93) begins tick 1 at time 2, not at the absolute
deadline `start + 1*interval = 1`, so it does not sleep until the
clock-aligned deadline as claimed. -/
theorem c4_counterexample :
    codeTickStart 0 1 (fun _ => 1) 1 = 2 ∧ alignedTickStart 0 1 1 = 1 ∧
      codeTickStart 0 1 (fun _ => 1) 1 ≠ alignedTickStart 0 1 1 := by
  refine ⟨?_, ?_, ?_⟩ <;>
    norm_num [codeTickStart, alignedTickStart]

/-- C4 (amended): after completing the work of a tick the loop sleeps a
fixed interval — not until an absolute deadline — so tick `k` begins at
`start + k*interval` plus the accumulated work of all previous ticks:
per-tick query latency accumulates as drift relative to the clock-aligned
schedule. -/
theorem c4_fixed_sleep_drift (start interval : ℚ) (work : Nat → ℚ)
    (k : Nat) :
    codeTickStart start interval work k =
      alignedTickStart start interval k + ∑ i in Finset.range k, work i := by
  induction k with
  | zero => simp [codeTickStart, alignedTickStart]
  | succ k ih =>
      rw [codeTickStart, ih, Finset.sum_range_succ]
      unfold alignedTickStart
      push_cast
      ring

/-! ## Claim C6: replay tolerance -/

theorem stepZip_skip (sts : List ParamStats) (cs : List Cell)
    (h : ∀ c ∈ cs, parseFloat c = none) :
    stepZip updateCell sts cs = sts := by
  induction sts generalizing cs with
  | nil => cases cs <;> rfl
  | cons st sts ih =>
      cases cs with
      | nil => rfl
      | cons c cs =>
          have hc := h c (List.mem_cons_self c cs)
          have ht : ∀ x ∈ cs, parseFloat x = none := fun x hx =>
            h x (List.mem_cons_of_mem c hx)
          simp [stepZip, updateCell, hc, ih cs ht]

theorem foldl_warnings_const {α : Type} (l : List α) (w : List String) :
    l.foldl (fun w _ => w) w = w := by
  induction l generalizing w with
  | nil => rfl
  | cons a l ih => simp [List.foldl_cons, ih w]

theorem jsonStep_sanitize (sts : List (String × ParamStats))
    (kv : String × Option Cell) :
    jsonStep sts (kv.1, jsonSanitize kv.2) = jsonStep sts kv := by
  obtain ⟨k, v⟩ := kv
  cases v with
  | none => rfl
  | some c => cases c <;> rfl

theorem foldl_jsonStep_sanitize (kvs : List (String × Option Cell))
    (sts : List (String × ParamStats)) :
    (kvs.map (fun kv => (kv.1, jsonSanitize kv.2))).foldl jsonStep sts =
      kvs.foldl jsonStep sts := by
  induction kvs generalizing sts with
  | nil => rfl
  | cons kv kvs ih =>
      rw [List.map_cons, List.foldl_cons, List.foldl_cons,
        jsonStep_sanitize, ih]

theorem foldl_entries_sanitize (entries : List (List (String × Option Cell)))
    (sts : List (String × ParamStats)) :
    (sanitizeEntries entries).foldl (fun sts e => e.foldl jsonStep sts)
        sts =
      entries.foldl (fun sts e => e.foldl jsonStep sts) sts := by
  induction entries generalizing sts with
  | nil => rfl
  | cons e es ih =>
      unfold sanitizeEntries
      rw [List.map_cons, List.foldl_cons, List.foldl_cons,
        foldl_jsonStep_sanitize]
      exact ih (e.foldl jsonStep sts)

theorem analyze_json_sanitize (entries : List (List (String × Option Cell))) :
    analyze_json (sanitizeEntries entries) = analyze_json entries := by
  unfold analyze_json jsonFold
  rw [foldl_entries_sanitize]

/-- C6 (amended): during analysis of a log file every malformed or
unparseable entry is skipped silently, in both the CSV and the JSON path,
and does not abort the analysis: `_analyze_csv`'s result equals the
analysis of the valid rows alone, and `_analyze_json` treats a corrupted
value exactly like an explicit null — updating nothing, so the analysis
equals that of the log with its corrupted values replaced by nulls, i.e.
the aggregation of the valid values — but neither scan emits a warning:
the corruption is not reported. -/
theorem c6_silent_skip (n : Nat) (pre post : List Row) (bad : Row)
    (hbad : ∀ c ∈ bad.cells, c.isMalformed = true)
    (entries : List (List (String × Option Cell))) (s0 : ParamStats)
    (tag : Nat) :
    (analyze_csv n (pre ++ bad :: post) = analyze_csv n (pre ++ post) ∧
      analyze_csv_warnings n (pre ++ bad :: post) = []) ∧
    (jsonUpdate s0 (some (Cell.malformed tag)) = s0 ∧
      analyze_json (sanitizeEntries entries) = analyze_json entries ∧
      analyze_json_warnings entries = []) := by
  refine ⟨⟨?_, foldl_warnings_const _ _⟩,
    rfl, analyze_json_sanitize entries, foldl_warnings_const _ _⟩
  unfold analyze_csv csvFold foldRows
  rw [List.map_append, List.map_cons, List.foldl_append, List.foldl_cons,
    List.map_append, List.foldl_append]
  congr 2
  apply stepZip_skip
  intro c hc
  have := hbad c hc
  cases c with
  | num q => simp [Cell.isMalformed] at this
  | nullMark => simp [Cell.isMalformed] at this
  | malformed t => rfl

/-- C6 counterexample: a log with a corrupted row between two valid rows is
analysed to exactly the statistics of the two valid rows, but the scan emits
no warning — the corruption is not reported, contradicting the claim that
every malformed entry is skipped *with a warning*. -/
theorem c6_counterexample :
    analyze_csv 1 [⟨"a", [Cell.num 3]⟩, ⟨"b", [Cell.malformed 0]⟩,
        ⟨"c", [Cell.num 5]⟩] =
      analyze_csv 1 [⟨"a", [Cell.num 3]⟩, ⟨"c", [Cell.num 5]⟩] ∧
    analyze_csv_warnings 1 [⟨"a", [Cell.num 3]⟩, ⟨"b", [Cell.malformed 0]⟩,
        ⟨"c", [Cell.num 5]⟩] = [] := by
  exact ⟨rfl, rfl⟩

/-! ## Lemmas: the logging row and the monitor data dict -/

theorem logRow_foldl (q : String → Option ℚ) (cmds : List String) (r : Row)
    (n : Nat) :
    cmds.foldl
        (fun acc cmd =>
          ({ acc.1 with cells := acc.1.cells ++ [toCell (q cmd)] }, acc.2 + 1))
        (r, n) =
      (⟨r.timestamp, r.cells ++ cmds.map (fun c => toCell (q c))⟩,
        n + cmds.length) := by
  induction cmds generalizing r n with
  | nil => simp
  | cons cmd cmds ih =>
      rw [List.foldl_cons, ih]
      simp [Nat.add_assoc, Nat.add_comm 1]

theorem logRow_eq (q : String → Option ℚ) (ts : String)
    (cmds : List String) :
    logRow q ts cmds =
      (⟨ts, cmds.map (fun c => toCell (q c))⟩, cmds.length) := by
  unfold logRow
  rw [logRow_foldl]
  simp

theorem findData_append_self (d : List (String × List ℚ)) (k : String)
    (v : ℚ) :
    findData (appendData d k v) k =
      (findData d k).map (fun vs => vs ++ [v]) := by
  induction d with
  | nil => rfl
  | cons p ps ih =>
      by_cases hp : p.1 = k
      · simp [appendData, findData, hp]
      · simp only [appendData, List.map_cons, if_neg hp] at *
        simpa [findData, hp] using ih

theorem findData_append_other (d : List (String × List ℚ)) (k k' : String)
    (v : ℚ) (h : k' ≠ k) :
    findData (appendData d k v) k' = findData d k' := by
  induction d with
  | nil => rfl
  | cons p ps ih =>
      by_cases hp : p.1 = k
      · have hpk : ¬(p.1 = k') := by
          rw [hp]; exact fun hk => h hk.symm
        simp only [appendData, List.map_cons, if_pos hp] at *
        simpa [findData, hpk] using ih
      · by_cases hp' : p.1 = k'
        · simp [appendData, findData, hp, hp', h]
        · simp only [appendData, List.map_cons, if_neg hp] at *
          simpa [findData, hp'] using ih

theorem monitorFold_cons_some (sup : List String) (q : String → Option ℚ)
    (key : String) (keys : List String) (d : List (String × List ℚ))
    (cnt : Nat) (v : ℚ) (hs : key ∈ sup) (hq : q key = some v) :
    monitorFold sup q (key :: keys) (d, cnt) =
      monitorFold sup q keys (appendData d key v, cnt + 1) := by
  unfold monitorFold
  rw [List.foldl_cons, if_pos hs, hq]

theorem monitorFold_cons_none (sup : List String) (q : String → Option ℚ)
    (key : String) (keys : List String) (d : List (String × List ℚ))
    (cnt : Nat) (hs : key ∈ sup) (hq : q key = none) :
    monitorFold sup q (key :: keys) (d, cnt) =
      monitorFold sup q keys (d, cnt + 1) := by
  unfold monitorFold
  rw [List.foldl_cons, if_pos hs, hq]

theorem monitorFold_cons_skip (sup : List String) (q : String → Option ℚ)
    (key : String) (keys : List String) (d : List (String × List ℚ))
    (cnt : Nat) (hs : key ∉ sup) :
    monitorFold sup q (key :: keys) (d, cnt) =
      monitorFold sup q keys (d, cnt) := by
  unfold monitorFold
  rw [List.foldl_cons, if_neg hs]

theorem monitorFold_find (sup : List String) (q : String → Option ℚ)
    (keys : List String) (d : List (String × List ℚ)) (cnt : Nat)
    (k : String) (hnd : keys.Nodup) :
    findData (monitorFold sup q keys (d, cnt)).1 k =
      if k ∈ keys ∧ k ∈ sup then
        match q k with
        | some v => (findData d k).map (fun vs => vs ++ [v])
        | none => findData d k
      else findData d k := by
  induction keys generalizing d cnt with
  | nil => simp [monitorFold]
  | cons key keys ih =>
      obtain ⟨hkey, hnd'⟩ := List.nodup_cons.mp hnd
      by_cases hs : key ∈ sup
      · cases hq : q key with
        | some v =>
            rw [monitorFold_cons_some sup q key keys d cnt v hs hq,
              ih _ _ hnd']
            by_cases hk : k = key
            · subst hk
              rw [if_neg (fun hc => hkey hc.1),
                if_pos ⟨List.mem_cons_self k keys, hs⟩, hq,
                findData_append_self]
            · rw [findData_append_other d key k v hk]
              simp [List.mem_cons, hk]
        | none =>
            rw [monitorFold_cons_none sup q key keys d cnt hs hq,
              ih _ _ hnd']
            by_cases hk : k = key
            · subst hk
              rw [if_neg (fun hc => hkey hc.1),
                if_pos ⟨List.mem_cons_self k keys, hs⟩, hq]
            · simp [List.mem_cons, hk]
      · rw [monitorFold_cons_skip sup q key keys d cnt hs, ih _ _ hnd']
        by_cases hk : k = key
        · subst hk
          rw [if_neg (fun hc => hkey hc.1), if_neg (fun hc => hs hc.2)]
        · simp [List.mem_cons, hk]

theorem monitorFold_count (sup : List String) (q : String → Option ℚ)
    (keys : List String) (d : List (String × List ℚ)) (cnt : Nat) :
    (monitorFold sup q keys (d, cnt)).2 =
      cnt + (keys.filter (fun k => k ∈ sup)).length := by
  induction keys generalizing d cnt with
  | nil => simp [monitorFold]
  | cons key keys ih =>
      by_cases hs : key ∈ sup
      · cases hq : q key with
        | some v =>
            rw [monitorFold_cons_some sup q key keys d cnt v hs hq, ih]
            simp [List.filter_cons, hs]
            omega
        | none =>
            rw [monitorFold_cons_none sup q key keys d cnt hs hq, ih]
            simp [List.filter_cons, hs]
            omega
      · rw [monitorFold_cons_skip sup q key keys d cnt hs, ih]
        simp [List.filter_cons, hs]

theorem vehicleFold_cons_queried (sup : List String) (q : String → Option ℚ)
    (cmd : String × String) (cmds : List (String × String))
    (acc : List (String × ℚ) × Nat) (hs : cmd.1 ∈ sup) :
    vehicleFold sup q (cmd :: cmds) acc =
      vehicleFold sup q cmds
        (match q cmd.1 with
         | some v => (acc.1 ++ [(cmd.2, v)], acc.2 + 1)
         | none => (acc.1, acc.2 + 1)) := by
  unfold vehicleFold
  rw [List.foldl_cons, if_pos hs]

theorem vehicleFold_cons_skip (sup : List String) (q : String → Option ℚ)
    (cmd : String × String) (cmds : List (String × String))
    (acc : List (String × ℚ) × Nat) (hs : cmd.1 ∉ sup) :
    vehicleFold sup q (cmd :: cmds) acc = vehicleFold sup q cmds acc := by
  unfold vehicleFold
  rw [List.foldl_cons, if_neg hs]

theorem vehicleFold_count (sup : List String) (q : String → Option ℚ)
    (cmds : List (String × String)) (acc : List (String × ℚ) × Nat) :
    (vehicleFold sup q cmds acc).2 =
      acc.2 + (cmds.filter (fun p => p.1 ∈ sup)).length := by
  induction cmds generalizing acc with
  | nil => simp [vehicleFold]
  | cons cmd cmds ih =>
      by_cases hs : cmd.1 ∈ sup
      · cases hq : q cmd.1 with
        | some v =>
            rw [vehicleFold_cons_queried sup q cmd cmds acc hs, hq, ih]
            simp [List.filter_cons, hs]
            omega
        | none =>
            rw [vehicleFold_cons_queried sup q cmd cmds acc hs, hq, ih]
            simp [List.filter_cons, hs]
            omega
      · rw [vehicleFold_cons_skip sup q cmd cmds acc hs, ih]
        simp [List.filter_cons, hs]

theorem findData_initKeys (keys : List String) (k : String) :
    findData (keys.map (fun k => (k, ([] : List ℚ)))) k =
      if k ∈ keys then some [] else none := by
  induction keys with
  | nil => simp [findData]
  | cons key keys ih =>
      by_cases hk : key = k
      · simp [findData, hk, List.mem_cons]
      · have hk' : ¬(k = key) := fun h => hk h.symm
        simp [findData, hk, ih, List.mem_cons, hk']

theorem monitor_live_data_snoc (t : OBDDiagnosticTool) (c : Connection)
    (hc : t.connection = some c) (qs : List (String → Option ℚ))
    (q : String → Option ℚ) :
    monitor_live_data t (qs ++ [q]) =
      (monitorTick t.supported_commands q (monitor_live_data t qs, 0)).1 := by
  unfold monitor_live_data
  rw [hc]
  simp [List.foldl_append, monitorTick]

/-- C3 counterexample: one `monitor_live_data` tick with all four keys
supported, in which the RPM query returns absent and the others return 5:
the emitted data contains no entry for RPM (its list stays empty while the
others grow) — the absent parameter is omitted, not recorded with an
explicit Absent marker. -/
theorem c3_counterexample :
    c3q "RPM" = none ∧
    findData (monitorTick monitorKeys c3q (initData, 0)).1 "RPM" =
      some [] ∧
    findData (monitorTick monitorKeys c3q (initData, 0)).1 "Speed" =
      some [5] := by
  refine ⟨rfl, ?_, ?_⟩ <;> rfl

/-- C3 (amended): `log_to_csv` does emit one entry per requested command,
with the explicit "NULL" marker for an absent response, and both loops
continue past an absent response — but `monitor_live_data` omits an absent
parameter from its per-tick data instead of recording a marker: a null
response leaves that key's list unchanged while the remaining keys of the
tick are still processed and subsequent ticks still run. -/
theorem c3_partial_tick (q : String → Option ℚ) (ts : String)
    (cmds : List String) (sup : List String) (d : List (String × List ℚ))
    (cnt : Nat) (k : String) (t : OBDDiagnosticTool) (c : Connection)
    (qs : List (String → Option ℚ)) (q2 : String → Option ℚ)
    (habs : q k = none) (hc : t.connection = some c) :
    (logRow q ts cmds).1 = ⟨ts, cmds.map (fun cmd => toCell (q cmd))⟩ ∧
    findData (monitorTick sup q (d, cnt)).1 k = findData d k ∧
    monitor_live_data t (qs ++ [q2]) =
      (monitorTick t.supported_commands q2
        (monitor_live_data t qs, 0)).1 := by
  refine ⟨?_, ?_, monitor_live_data_snoc t c hc qs q2⟩
  · rw [logRow_eq]
  · unfold monitorTick
    rw [monitorFold_find sup q monitorKeys d cnt k (by decide)]
    split_ifs with h
    · rw [habs]
    · rfl

/-- Witness for C3 (amended): the concrete tick `c3q` (absent RPM), two
requested commands, and a one-tick run of a connected tool. -/
theorem c3_partial_tick_witness :
    (c3q "RPM" = none ∧ c8tool.connection = some c8conn) ∧
    ((logRow c3q "t" ["RPM", "Speed"]).1 =
        ⟨"t", (["RPM", "Speed"]).map (fun cmd => toCell (c3q cmd))⟩ ∧
      findData (monitorTick monitorKeys c3q (initData, 0)).1 "RPM" =
        findData initData "RPM" ∧
      monitor_live_data c8tool ([] ++ [c3q]) =
        (monitorTick c8tool.supported_commands c3q
          (monitor_live_data c8tool [], 0)).1) :=
  ⟨⟨rfl, rfl⟩,
    c3_partial_tick c3q "t" ["RPM", "Speed"] monitorKeys initData 0 "RPM"
      c8tool c8conn [] c3q rfl rfl⟩

/-- C5 counterexample: with an empty supported set, a `log_to_csv` tick for
the single requested command "RPM" still issues one adapter round trip —
the logging path never consults the supported set and does not
short-circuit to Absent. -/
theorem c5_counterexample :
    ("RPM" ∉ ([] : List String)) ∧
    (logRow (fun _ => some 1) "t" ["RPM"]).2 = 1 ∧
    (logRow (fun _ => some 1) "t" ["RPM"]).2 ≠ 0 :=
  ⟨by decide, rfl, by decide⟩

/-- C5 (amended): the supported set is captured at connect time by
`OBDDiagnosticTool` and respected by `get_vehicle_info` and
`monitor_live_data` (exactly one round trip per supported command, none for
unsupported ones) — but the logging path (`OBDDataLogger.log_to_csv`)
issues one round trip per requested command unconditionally, never
consulting a supported set. -/
theorem c5_supported_set (q : String → Option ℚ) (ts : String)
    (cmds : List String) (sup : List String) (d : List (String × List ℚ))
    (cnt : Nat) (t t0 : OBDDiagnosticTool) (c c2 : Connection)
    (hc : t.connection = some c) (hcon : c2.is_connected = true) :
    (logRow q ts cmds).2 = cmds.length ∧
    (monitorTick sup q (d, cnt)).2 =
      cnt + (monitorKeys.filter (fun k => k ∈ sup)).length ∧
    (get_vehicle_info t).2 =
      (vehicleCommands.filter (fun p => p.1 ∈ t.supported_commands)).length ∧
    (connect t0 c2).1.supported_commands = c2.supported_commands := by
  refine ⟨?_, ?_, ?_, ?_⟩
  · rw [logRow_eq]
  · exact monitorFold_count sup q monitorKeys d cnt
  · unfold get_vehicle_info
    rw [hc, vehicleFold_count]
    simp
  · unfold connect
    rw [if_pos hcon]

/-- Witness for C5 (amended) at concrete inputs: a connected tool whose
captured supported set is empty, and a connecting adapter. -/
theorem c5_supported_set_witness :
    (c8tool.connection = some c8conn ∧ c8conn.is_connected = true) ∧
    ((logRow c3q "t" ["RPM"]).2 = (["RPM"] : List String).length ∧
      (monitorTick ([] : List String) c3q (initData, 0)).2 =
        0 + (monitorKeys.filter
          (fun k => k ∈ ([] : List String))).length ∧
      (get_vehicle_info c8tool).2 =
        (vehicleCommands.filter
          (fun p => p.1 ∈ c8tool.supported_commands)).length ∧
      (connect c8tool c8conn).1.supported_commands =
        c8conn.supported_commands) :=
  ⟨⟨rfl, rfl⟩,
    c5_supported_set c3q "t" ["RPM"] [] initData 0 c8tool c8tool c8conn
      c8conn rfl rfl⟩

/-- Witness for C6 (amended) at a concrete corrupted CSV row and a concrete
JSON log with a corrupted value. -/
theorem c6_silent_skip_witness :
    (∀ c ∈ (Row.cells ⟨"b", [Cell.malformed 0]⟩), c.isMalformed = true) ∧
    ((analyze_csv 1 ([⟨"a", [Cell.num 3]⟩] ++ ⟨"b", [Cell.malformed 0]⟩ ::
        [⟨"c", [Cell.num 5]⟩]) =
      analyze_csv 1 ([⟨"a", [Cell.num 3]⟩] ++ [⟨"c", [Cell.num 5]⟩]) ∧
     analyze_csv_warnings 1 ([⟨"a", [Cell.num 3]⟩] ++
        ⟨"b", [Cell.malformed 0]⟩ :: [⟨"c", [Cell.num 5]⟩]) = []) ∧
     (jsonUpdate initStats (some (Cell.malformed 7)) = initStats ∧
      analyze_json (sanitizeEntries c6entries) = analyze_json c6entries ∧
      analyze_json_warnings c6entries = [])) :=
  ⟨by decide,
    c6_silent_skip 1 [⟨"a", [Cell.num 3]⟩] [⟨"c", [Cell.num 5]⟩]
      ⟨"b", [Cell.malformed 0]⟩ (by decide) c6entries initStats 7⟩

/-! ## Claims C8, C9, C10 -/

/-- C8: calling `close()` any number of times is safe: the first call on an
open session releases the underlying connection, every further call is a
no-op that changes nothing, and a call with no connection established leaves
the state untouched — for both `OBDDiagnosticTool.close` and
`OBDDataLogger.close`. -/
theorem c8_close_idempotent (t : OBDDiagnosticTool) (l : OBDDataLogger) :
    (∀ c, t.connection = some c →
      t.close.connection = some c.close ∧ c.close.isOpen = false) ∧
    t.close.close = t.close ∧
    (t.connection = none → t.close = t) ∧
    (∀ c, l.connection = some c →
      l.close.connection = some c.close ∧ c.close.isOpen = false) ∧
    l.close.close = l.close ∧
    (l.connection = none → l.close = l) := by
  obtain ⟨tc, sup⟩ := t
  obtain ⟨lc⟩ := l
  refine ⟨?_, ?_, ?_, ?_, ?_, ?_⟩
  · intro c hc
    cases tc with
    | none => exact absurd hc (by simp)
    | some c0 =>
        obtain rfl : c0 = c := by simpa using hc
        exact ⟨rfl, rfl⟩
  · cases tc <;> rfl
  · intro hc
    cases tc with
    | none => rfl
    | some c0 => exact absurd hc (by simp)
  · intro c hc
    cases lc with
    | none => exact absurd hc (by simp)
    | some c0 =>
        obtain rfl : c0 = c := by simpa using hc
        exact ⟨rfl, rfl⟩
  · cases lc <;> rfl
  · intro hc
    cases lc with
    | none => rfl
    | some c0 => exact absurd hc (by simp)

/-- Witness for C8 at a concrete open connection held by both a tool and a
logger. -/
theorem c8_close_idempotent_witness :
    (c8tool.connection = some c8conn ∧ c8logger.connection = some c8conn) ∧
    (c8tool.close.connection = some c8conn.close ∧
      c8conn.close.isOpen = false) ∧
    c8tool.close.close = c8tool.close ∧
    (c8logger.close.connection = some c8conn.close ∧
      c8conn.close.isOpen = false) ∧
    c8logger.close.close = c8logger.close :=
  ⟨⟨rfl, rfl⟩,
    (c8_close_idempotent c8tool c8logger).1 c8conn rfl,
    (c8_close_idempotent c8tool c8logger).2.1,
    (c8_close_idempotent c8tool c8logger).2.2.2.1 c8conn rfl,
    (c8_close_idempotent c8tool c8logger).2.2.2.2.1⟩

/-- C9 counterexample: `generate_html_report` embeds the clock reading taken
inside the call (line 256) into the rendered report, so two invocations on
identical collected data made at different instants produce different
reports — report assembly is not a function of the collected inputs
alone. -/
theorem c9_counterexample :
    renderReport "2025-01-01 00:00:00" ⟨[], [], [], []⟩ ≠
      renderReport "2025-01-01 00:00:01" ⟨[], [], [], []⟩ := by
  decide

/-- C9 (amended): report rendering is deterministic in the collected data
*and* the clock readings taken during the call — two rendered reports are
equal exactly when the generation timestamps and the collected data agree —
and `generate_html_report` writes the rendered report to a file named by the
first clock reading (an I/O effect, with the data gathered by
`generate_report` itself through adapter queries beforehand). -/
theorem c9_report_determinism (n1 n2 n2' : String) (d d' : ReportData) :
    (renderReport n2 d = renderReport n2' d' ↔ (n2 = n2' ∧ d = d')) ∧
    (generate_html_report n1 n2 d).2 = renderReport n2 d ∧
    (generate_html_report n1 n2 d).1 =
      "diagnostic_report_" ++ n1 ++ ".html" := by
  refine ⟨?_, rfl, rfl⟩
  constructor
  · intro h
    obtain ⟨a, b, c, g⟩ := d
    obtain ⟨a', b', c', g'⟩ := d'
    simp only [renderReport, RenderedReport.mk.injEq] at h
    exact ⟨h.1, by simp [h.2.1, h.2.2.1, h.2.2.2.1, h.2.2.2.2]⟩
  · rintro ⟨rfl, rfl⟩
    rfl

/-- C10: every public operation invoked before a successful connect (while
the connection handle is `None`) returns its empty/failure value instead of
raising: `get_fault_codes` the empty list, `clear_fault_codes` `False`,
`get_vehicle_info` and `monitor_live_data` empty mappings, and
`collect_sensor_data` an empty mapping. -/
theorem c10_no_connection_defaults (sup : List String)
    (qs : List (String → Option ℚ)) :
    get_fault_codes ⟨none, sup⟩ = [] ∧
    clear_fault_codes ⟨none, sup⟩ = false ∧
    (get_vehicle_info ⟨none, sup⟩).1 = [] ∧
    monitor_live_data ⟨none, sup⟩ qs = [] ∧
    collect_sensor_data ⟨none⟩ = [] :=
  ⟨rfl, rfl, rfl, rfl, rfl⟩

end OBD2
